import Mathlib

/-
Verification of the IAM policy scanner (src/aws-iam-allactions.py).

The development shallowly embeds the program:
* `Statement` models an IAM policy statement mapping; Python values that are
  "a string or a list of strings" become `StrOrList`, and missing keys become
  `Option`.
* `is_action_wildcard` and `is_many_actions` are the two statement
  classifiers (lines 8-41 of the source).
* `main` models the scan driver: an `AwsWorld` packages the paginated
  list-policies response (with an optional client error raised by the
  paginator after the listed pages) and the get-policy /
  get-policy-version endpoints.  Uncaught exceptions (the unguarded
  `stmt["Action"]` lookup on line 82) are modelled by `Option`: `none`
  is a crash of the whole scan.
-/

/-- A Python value that is either a single string or a list of strings. -/
inductive StrOrList where
  | str (s : String)
  | list (l : List String)
deriving DecidableEq

/-- Python's `[x] if isinstance(x, str) else x` (source lines 14, 20, 32). -/
def StrOrList.normalize : StrOrList → List String
  | .str s => [s]
  | .list l => l

/-- An IAM policy statement mapping.  `none` models an absent key. -/
structure Statement where
  effect : Option String
  action : Option StrOrList
  resource : Option StrOrList
  condition : Option (List (String × String))
deriving DecidableEq

/-- The test `pat.isPrefixOf` at every suffix: Python's substring test
`pat in hay` restricted to the character list of `hay`. -/
def charsContainsSub (pat : List Char) : List Char → Bool
  | [] => pat.isEmpty
  | c :: cs => List.isPrefixOf pat (c :: cs) || charsContainsSub pat cs

/-- Python's substring test `pat in hay` for strings. -/
def strContainsSub (hay pat : String) : Bool :=
  charsContainsSub pat.data hay.data

/-- Python's `<=` on strings: lexicographic comparison of code points,
a proper prefix comparing below its extensions. -/
def charsLe : List Char → List Char → Bool
  | [], _ => true
  | _ :: _, [] => false
  | a :: as, b :: bs =>
    if a.toNat < b.toNat then true
    else if b.toNat < a.toNat then false
    else charsLe as bs

/-- Python's `<=` on strings. -/
def strLe (a b : String) : Bool :=
  charsLe a.data b.data

/-- Relation form of `strLe`, the order used by Python's `sorted`. -/
def strLeP (a b : String) : Prop :=
  strLe a b = true

instance : DecidableRel strLeP :=
  fun a b => inferInstanceAs (Decidable (strLe a b = true))

/-- The value `statement.get("Action", [])` normalized to a list (source lines 13-14
and 31-32). -/
def normActions (statement : Statement) : List String :=
  (statement.action.getD (StrOrList.list [])).normalize

/-- The value `statement.get("Resource", "*")` normalized to a list (source lines
19-20). -/
def normResources (statement : Statement) : List String :=
  (statement.resource.getD (StrOrList.str "*")).normalize

/-- Truthiness of `statement.get("Condition", {})` negated: `not condition`
(source lines 22, 24). -/
def condIsEmpty (statement : Statement) : Bool :=
  (statement.condition.getD []).isEmpty

/-- Source lines 8-24: true iff the statement allows `Action: "*"` with
`Allow`, a wildcard (or `:*`) resource, and no condition. -/
def is_action_wildcard (statement : Statement) : Bool :=
  if statement.effect ≠ some "Allow" then false
  else
    let actions := normActions statement
    if "*" ∉ actions then false
    else
      let resources := normResources statement
      (resources.contains "*" || resources.any (fun r => strContainsSub r ":*"))
        && condIsEmpty statement

/-- Source line 6: `ACTION_COUNT_THRESHOLD = 20`. -/
def ACTION_COUNT_THRESHOLD : Nat := 20

/-- Source lines 26-41 with the threshold made an explicit parameter:
true iff the statement allows at least `threshold` distinct actions,
none of them the wildcard. -/
def is_many_actions_t (threshold : Nat) (statement : Statement) : Bool :=
  if statement.effect ≠ some "Allow" then false
  else
    let unique_actions := (normActions statement).dedup
    if "*" ∈ unique_actions then false
    else decide (unique_actions.length ≥ threshold)

/-- Source lines 26-41: `is_many_actions` at the module-level threshold. -/
def is_many_actions (statement : Statement) : Bool :=
  is_many_actions_t ACTION_COUNT_THRESHOLD statement

/-- An AWS client error: `e.response["Error"]` with its code and message. -/
structure ClientError where
  code : String
  message : String
deriving DecidableEq

/-- One entry of a list-policies page (source lines 56-57). -/
structure PolicyInfo where
  policyName : String
  policyArn : String
deriving DecidableEq

/-- The part of the get-policy response the driver reads (source line 61). -/
structure PolicyData where
  defaultVersionId : String
deriving DecidableEq

/-- A policy document's `Statement` field: a single statement mapping or a
list of them. -/
inductive StmtField where
  | single (s : Statement)
  | list (l : List Statement)
deriving DecidableEq

/-- A policy version document. -/
structure Document where
  statement : Option StmtField
deriving DecidableEq

/-- Source lines 66-68: `document.get("Statement", [])`, a bare mapping
wrapped as a one-element list. -/
def Document.statements (d : Document) : List Statement :=
  match d.statement.getD (StmtField.list []) with
  | .single s => [s]
  | .list l => l

/-- The environment the driver runs against: the pages yielded by the
list-policies paginator, an optional client error the paginator raises
after those pages, and the two per-policy endpoints. -/
structure AwsWorld where
  pages : List (List PolicyInfo)
  pageError : Option ClientError
  getPolicy : String → Except ClientError PolicyData
  getPolicyVersion : String → String → Except ClientError Document

/-- A finding appended on source lines 72-76. -/
structure WildcardFinding where
  policyName : String
  policyArn : String
  stmt : Statement
deriving DecidableEq

/-- A finding appended on source lines 78-83, with its `ActionCount`. -/
structure ManyFinding where
  policyName : String
  policyArn : String
  stmt : Statement
  actionCount : Nat
deriving DecidableEq

/-- How the `if`/`elif` chain on lines 71-83 classifies one statement. -/
inductive Verdict where
  | wildcard
  | many (count : Nat)
  | clean
deriving DecidableEq

/-- Source line 82: `len(set(stmt["Action"])) if isinstance(stmt["Action"],
list) else 1`; `none` is the `KeyError` raised when the key is absent. -/
def stmtActionCount (statement : Statement) : Option Nat :=
  match statement.action with
  | none => none
  | some (.str _) => some 1
  | some (.list l) => some l.dedup.length

/-- The `if is_action_wildcard ... elif is_many_actions ...` chain of source
lines 71-83 for one statement. -/
def classifyStmt (statement : Statement) : Option Verdict :=
  if is_action_wildcard statement then some Verdict.wildcard
  else if is_many_actions statement then
    match stmtActionCount statement with
    | none => none
    | some n => some (Verdict.many n)
  else some Verdict.clean

/-- The statement loop of source lines 70-83, collecting the two finding
lists in statement order. -/
def scanStatements (policyName policyArn : String) :
    List Statement → Option (List WildcardFinding × List ManyFinding)
  | [] => some ([], [])
  | stmt :: rest =>
    match classifyStmt stmt with
    | none => none
    | some v =>
      match scanStatements policyName policyArn rest with
      | none => none
      | some (ws, ms) =>
        match v with
        | .wildcard => some (⟨policyName, policyArn, stmt⟩ :: ws, ms)
        | .many n => some (ws, ⟨policyName, policyArn, stmt, n⟩ :: ms)
        | .clean => some (ws, ms)

/-- The permission-issue string of source line 89. -/
def getPolicyIssue (policyName code : String) : String :=
  "iam:GetPolicy on " ++ policyName ++ " — " ++ code

/-- The permission-issue string of source line 86. -/
def getPolicyVersionIssue (policyName code : String) : String :=
  "iam:GetPolicyVersion on " ++ policyName ++ " — " ++ code

/-- The per-policy body of source lines 59-89: fetch metadata, fetch the
default version's document, scan its statements; a caught client error
yields one permission issue and no findings for this policy. -/
def scanPolicy (w : AwsWorld) (p : PolicyInfo) :
    Option (List WildcardFinding × List ManyFinding × List String) :=
  match w.getPolicy p.policyArn with
  | .error e => some ([], [], [getPolicyIssue p.policyName e.code])
  | .ok pd =>
    match w.getPolicyVersion p.policyArn pd.defaultVersionId with
    | .error e => some ([], [], [getPolicyVersionIssue p.policyName e.code])
    | .ok doc =>
      match scanStatements p.policyName p.policyArn doc.statements with
      | none => none
      | some (ws, ms) => some (ws, ms, [])

/-- The policy loop of source lines 55-89 over a flattened page, appending
each policy's findings and permission issues in order. -/
def scanPolicies (w : AwsWorld) :
    List PolicyInfo → Option (List WildcardFinding × List ManyFinding × List String)
  | [] => some ([], [], [])
  | p :: rest =>
    match scanPolicy w p with
    | none => none
    | some (ws₁, ms₁, is₁) =>
      match scanPolicies w rest with
      | none => none
      | some (ws₂, ms₂, is₂) => some (ws₁ ++ ws₂, ms₁ ++ ms₂, is₁ ++ is₂)

/-- Source line 118: `sorted(set(permission_issues))`. -/
def printedIssues (issues : List String) : List String :=
  List.insertionSort strLeP issues.dedup

/-- What one run of `main` prints: either only the fatal listing error
(source lines 91-93) or the full report (source lines 95-121). -/
inductive ScanResult where
  | fatal (e : ClientError)
  | report (wildcard : List WildcardFinding) (manyActions : List ManyFinding)
      (issues : List String)
deriving DecidableEq

/-- The `main` procedure, source lines 43-121 (renamed: Lean reserves the
name `main` for executables): scan every page the paginator yields; if the
paginator then raises, print only that error, else print the report with
the deduplicated, sorted permission issues.  `none` is an uncaught
exception. -/
def mainScan (w : AwsWorld) : Option ScanResult :=
  match scanPolicies w w.pages.flatten with
  | none => none
  | some (ws, ms, issues) =>
    match w.pageError with
    | some e => some (ScanResult.fatal e)
    | none => some (ScanResult.report ws ms (printedIssues issues))

/-- Twenty distinct non-wildcard action identifiers. -/
def acts20 : List String :=
  ["s3:A01", "s3:A02", "s3:A03", "s3:A04", "s3:A05", "s3:A06", "s3:A07",
   "s3:A08", "s3:A09", "s3:A10", "s3:A11", "s3:A12", "s3:A13", "s3:A14",
   "s3:A15", "s3:A16", "s3:A17", "s3:A18", "s3:A19", "s3:A20"]

/-- An Allow statement listing twenty distinct non-wildcard actions. -/
def stmt20 : Statement :=
  { effect := some "Allow", action := some (StrOrList.list acts20),
    resource := some (StrOrList.str "*"), condition := none }

/-- An Allow statement listing nineteen distinct non-wildcard actions. -/
def stmt19 : Statement :=
  { effect := some "Allow", action := some (StrOrList.list (acts20.take 19)),
    resource := some (StrOrList.str "*"), condition := none }

/-- An Allow statement with twenty-five action entries but only fifteen
distinct values. -/
def stmt25dup15 : Statement :=
  { effect := some "Allow",
    action := some (StrOrList.list (acts20.take 15 ++ acts20.take 10)),
    resource := some (StrOrList.str "*"), condition := none }

/-- The maximal-risk statement: `Effect: Allow, Action: "*", Resource: "*"`,
no condition. -/
def stmtWild : Statement :=
  { effect := some "Allow", action := some (StrOrList.str "*"),
    resource := some (StrOrList.str "*"), condition := none }

/-- The statement `stmtWild` with the `Resource` key absent. -/
def stmtWildNoRes : Statement :=
  { effect := some "Allow", action := some (StrOrList.str "*"),
    resource := none, condition := none }

/-- A malformed statement mapping with no `Effect` key. -/
def stmtNoEffect : Statement :=
  { effect := none, action := some (StrOrList.str "*"),
    resource := none, condition := none }

/-- A statement mapping with no `Action` key. -/
def stmtNoAction : Statement :=
  { effect := some "Allow", action := none,
    resource := some (StrOrList.str "*"), condition := none }

/-- A sample list-policies entry. -/
def pInfoA : PolicyInfo :=
  { policyName := "PolicyA", policyArn := "arn:aws:iam::1:policy/PolicyA" }

/-- A sample access-denied client error. -/
def errDenied : ClientError :=
  { code := "AccessDenied", message := "not authorized" }

/-- A world whose paginator yields one page holding one policy whose only
statement is a wildcard finding, then raises `errDenied`. -/
def worldLateFail : AwsWorld :=
  { pages := [[pInfoA]],
    pageError := some errDenied,
    getPolicy := fun _ => Except.ok { defaultVersionId := "v1" },
    getPolicyVersion := fun _ _ =>
      Except.ok { statement := some (StmtField.single stmtWild) } }

/-- A world where fetching any policy version fails with `errDenied`. -/
def worldVersionFail : AwsWorld :=
  { pages := [[pInfoA]],
    pageError := none,
    getPolicy := fun _ => Except.ok { defaultVersionId := "v1" },
    getPolicyVersion := fun _ _ => Except.error errDenied }

/-- A world where fetching any policy's metadata fails with `errDenied`. -/
def worldPolicyFail : AwsWorld :=
  { pages := [[pInfoA]],
    pageError := none,
    getPolicy := fun _ => Except.error errDenied,
    getPolicyVersion := fun _ _ => Except.error errDenied }

theorem charsLe_total (l₁ l₂ : List Char) :
    charsLe l₁ l₂ = true ∨ charsLe l₂ l₁ = true := by
  induction l₁ generalizing l₂ with
  | nil => left; rfl
  | cons a as ih =>
    cases l₂ with
    | nil => right; rfl
    | cons b bs =>
      by_cases hab : a.toNat < b.toNat
      · left; simp [charsLe, hab]
      · by_cases hba : b.toNat < a.toNat
        · right; simp [charsLe, hba]
        · rcases ih bs with h | h
          · left; simp [charsLe, hab, hba, h]
          · right; simp [charsLe, hba, hab, h]

theorem charsLe_trans (l₁ l₂ l₃ : List Char) (h₁ : charsLe l₁ l₂ = true)
    (h₂ : charsLe l₂ l₃ = true) : charsLe l₁ l₃ = true := by
  induction l₁ generalizing l₂ l₃ with
  | nil => rfl
  | cons a as ih =>
    cases l₂ with
    | nil => simp [charsLe] at h₁
    | cons b bs =>
      cases l₃ with
      | nil => simp [charsLe] at h₂
      | cons c cs =>
        simp only [charsLe] at h₁ h₂ ⊢
        rcases Nat.lt_trichotomy a.toNat b.toNat with hab | hab | hab
        · rcases Nat.lt_trichotomy b.toNat c.toNat with hbc | hbc | hbc
          · rw [if_pos (show a.toNat < c.toNat by omega)]
          · rw [if_pos (show a.toNat < c.toNat by omega)]
          · rw [if_neg (show ¬b.toNat < c.toNat by omega), if_pos hbc] at h₂
            exact absurd h₂ (by simp)
        · rcases Nat.lt_trichotomy b.toNat c.toNat with hbc | hbc | hbc
          · rw [if_pos (show a.toNat < c.toNat by omega)]
          · rw [if_neg (show ¬a.toNat < b.toNat by omega),
                if_neg (show ¬b.toNat < a.toNat by omega)] at h₁
            rw [if_neg (show ¬b.toNat < c.toNat by omega),
                if_neg (show ¬c.toNat < b.toNat by omega)] at h₂
            rw [if_neg (show ¬a.toNat < c.toNat by omega),
                if_neg (show ¬c.toNat < a.toNat by omega)]
            exact ih bs cs h₁ h₂
          · rw [if_neg (show ¬b.toNat < c.toNat by omega), if_pos hbc] at h₂
            exact absurd h₂ (by simp)
        · rw [if_neg (show ¬a.toNat < b.toNat by omega), if_pos hab] at h₁
          exact absurd h₁ (by simp)

theorem is_action_wildcard_iff (s : Statement) :
    is_action_wildcard s = true ↔
      (s.effect = some "Allow" ∧ "*" ∈ normActions s ∧
       ("*" ∈ normResources s ∨
         ∃ r ∈ normResources s, strContainsSub r ":*" = true) ∧
       condIsEmpty s = true) := by
  by_cases h1 : s.effect = some "Allow"
  · by_cases h2 : "*" ∈ normActions s
    · simp [is_action_wildcard, h1, h2]
    · simp [is_action_wildcard, h1, h2]
  · simp [is_action_wildcard, h1]

theorem is_many_actions_t_iff (threshold : Nat) (s : Statement) :
    is_many_actions_t threshold s = true ↔
      (s.effect = some "Allow" ∧ "*" ∉ (normActions s).dedup ∧
       threshold ≤ (normActions s).dedup.length) := by
  by_cases h1 : s.effect = some "Allow"
  · by_cases h2 : "*" ∈ (normActions s).dedup
    · simp [is_many_actions_t, h1, h2]
    · simp [is_many_actions_t, h1, h2]
  · simp [is_many_actions_t, h1]

theorem action_isSome_of_many (threshold : Nat) (s : Statement)
    (ht : 1 ≤ threshold) (h : is_many_actions_t threshold s = true) :
    s.action.isSome = true := by
  rw [is_many_actions_t_iff] at h
  obtain ⟨-, -, hlen⟩ := h
  cases ha : s.action with
  | none =>
    rw [show normActions s = [] by simp [normActions, ha, StrOrList.normalize]]
      at hlen
    simp at hlen
    omega
  | some x => rfl

theorem stmtActionCount_isSome_of_many (s : Statement)
    (h : is_many_actions s = true) : (stmtActionCount s).isSome = true := by
  have ha := action_isSome_of_many ACTION_COUNT_THRESHOLD s (by decide) h
  cases hx : s.action with
  | none => rw [hx] at ha; simp at ha
  | some x => cases x <;> simp [stmtActionCount, hx]

theorem stmtActionCount_eq (s : Statement) (n : Nat)
    (h : stmtActionCount s = some n) : n = (normActions s).dedup.length := by
  cases ha : s.action with
  | none => rw [stmtActionCount, ha] at h; exact absurd h (by simp)
  | some x =>
    cases x with
    | str c =>
      rw [stmtActionCount, ha] at h
      simp at h
      simp [normActions, ha, StrOrList.normalize, ← h]
    | list l =>
      rw [stmtActionCount, ha] at h
      simp at h
      simp [normActions, ha, StrOrList.normalize, ← h]

theorem classifyStmt_isSome (s : Statement) : (classifyStmt s).isSome = true := by
  by_cases hw : is_action_wildcard s
  · simp [classifyStmt, hw]
  · by_cases hm : is_many_actions s
    · have := stmtActionCount_isSome_of_many s hm
      cases hc : stmtActionCount s with
      | none => rw [hc] at this; simp at this
      | some n => simp [classifyStmt, hw, hm, hc]
    · simp [classifyStmt, hw, hm]

theorem classifyStmt_wildcard_iff (s : Statement) :
    classifyStmt s = some Verdict.wildcard ↔ is_action_wildcard s = true := by
  by_cases hw : is_action_wildcard s
  · simp [classifyStmt, hw]
  · by_cases hm : is_many_actions s
    · cases hc : stmtActionCount s with
      | none => simp [classifyStmt, hw, hm, hc]
      | some n => simp [classifyStmt, hw, hm, hc]
    · simp [classifyStmt, hw, hm]

theorem classifyStmt_many (s : Statement) (n : Nat)
    (h : classifyStmt s = some (Verdict.many n)) :
    is_action_wildcard s = false ∧ is_many_actions s = true ∧
      stmtActionCount s = some n := by
  by_cases hw : is_action_wildcard s
  · simp [classifyStmt, hw] at h
  · by_cases hm : is_many_actions s
    · cases hc : stmtActionCount s with
      | none => simp [classifyStmt, hw, hm, hc] at h
      | some m =>
        simp [classifyStmt, hw, hm, hc] at h
        simp [hw, hm, hc, h]
    · simp [classifyStmt, hw, hm] at h

theorem scanStatements_isSome (policyName policyArn : String)
    (stmts : List Statement) :
    (scanStatements policyName policyArn stmts).isSome = true := by
  induction stmts with
  | nil => rfl
  | cons stmt rest ih =>
    have hc := classifyStmt_isSome stmt
    cases hcv : classifyStmt stmt with
    | none => rw [hcv] at hc; simp at hc
    | some v =>
      cases hr : scanStatements policyName policyArn rest with
      | none => rw [hr] at ih; simp at ih
      | some pr =>
        obtain ⟨ws, ms⟩ := pr
        cases v <;> simp [scanStatements, hcv, hr]

theorem scanStatements_mem (policyName policyArn : String)
    (stmts : List Statement) (ws : List WildcardFinding)
    (ms : List ManyFinding)
    (h : scanStatements policyName policyArn stmts = some (ws, ms)) :
    (∀ f ∈ ws, is_action_wildcard f.stmt = true) ∧
      (∀ g ∈ ms, is_action_wildcard g.stmt = false ∧
        is_many_actions g.stmt = true ∧
        stmtActionCount g.stmt = some g.actionCount) := by
  induction stmts generalizing ws ms with
  | nil =>
    simp [scanStatements] at h
    simp [h.1, h.2]
  | cons stmt rest ih =>
    cases hcv : classifyStmt stmt with
    | none => simp [scanStatements, hcv] at h
    | some v =>
      cases hr : scanStatements policyName policyArn rest with
      | none => simp [scanStatements, hcv, hr] at h
      | some pr =>
        obtain ⟨ws', ms'⟩ := pr
        obtain ⟨ihw, ihm⟩ := ih ws' ms' hr
        cases v with
        | wildcard =>
          simp [scanStatements, hcv, hr] at h
          obtain ⟨hws, hms⟩ := h
          constructor
          · intro f hf
            rw [← hws] at hf
            rcases List.mem_cons.mp hf with hf | hf
            · rw [hf]
              exact (classifyStmt_wildcard_iff stmt).mp hcv
            · exact ihw f hf
          · intro g hg
            rw [← hms] at hg
            exact ihm g hg
        | many n =>
          simp [scanStatements, hcv, hr] at h
          obtain ⟨hws, hms⟩ := h
          constructor
          · intro f hf
            rw [← hws] at hf
            exact ihw f hf
          · intro g hg
            rw [← hms] at hg
            rcases List.mem_cons.mp hg with hg | hg
            · rw [hg]
              exact classifyStmt_many stmt n hcv
            · exact ihm g hg
        | clean =>
          simp [scanStatements, hcv, hr] at h
          obtain ⟨hws, hms⟩ := h
          exact ⟨fun f hf => ihw f (hws ▸ hf), fun g hg => ihm g (hms ▸ hg)⟩

theorem scanPolicy_isSome (w : AwsWorld) (p : PolicyInfo) :
    (scanPolicy w p).isSome = true := by
  cases hg : w.getPolicy p.policyArn with
  | error e => simp [scanPolicy, hg]
  | ok pd =>
    cases hv : w.getPolicyVersion p.policyArn pd.defaultVersionId with
    | error e => simp [scanPolicy, hg, hv]
    | ok doc =>
      have hs := scanStatements_isSome p.policyName p.policyArn doc.statements
      cases hr : scanStatements p.policyName p.policyArn doc.statements with
      | none => rw [hr] at hs; simp at hs
      | some pr =>
        obtain ⟨ws, ms⟩ := pr
        simp [scanPolicy, hg, hv, hr]

theorem scanPolicies_isSome (w : AwsWorld) (ps : List PolicyInfo) :
    (scanPolicies w ps).isSome = true := by
  induction ps with
  | nil => rfl
  | cons p rest ih =>
    have hp := scanPolicy_isSome w p
    cases hpv : scanPolicy w p with
    | none => rw [hpv] at hp; simp at hp
    | some r =>
      obtain ⟨ws₁, ms₁, is₁⟩ := r
      cases hr : scanPolicies w rest with
      | none => rw [hr] at ih; simp at ih
      | some r₂ =>
        obtain ⟨ws₂, ms₂, is₂⟩ := r₂
        simp [scanPolicies, hpv, hr]

theorem scanPolicies_append (w : AwsWorld) (ps qs : List PolicyInfo)
    (a b : List WildcardFinding × List ManyFinding × List String)
    (ha : scanPolicies w ps = some a) (hb : scanPolicies w qs = some b) :
    scanPolicies w (ps ++ qs) =
      some (a.1 ++ b.1, a.2.1 ++ b.2.1, a.2.2 ++ b.2.2) := by
  induction ps generalizing a with
  | nil =>
    simp [scanPolicies] at ha
    simp [← ha, hb]
  | cons p rest ih =>
    cases hpv : scanPolicy w p with
    | none => simp [scanPolicies, hpv] at ha
    | some r =>
      obtain ⟨ws₁, ms₁, is₁⟩ := r
      cases hr : scanPolicies w rest with
      | none => simp [scanPolicies, hpv, hr] at ha
      | some a' =>
        obtain ⟨ws₂, ms₂, is₂⟩ := a'
        simp [scanPolicies, hpv, hr] at ha
        have htail := ih (ws₂, ms₂, is₂) hr
        simp only [List.cons_append, scanPolicies, hpv]
        simp only [List.append_eq]
        rw [htail]
        simp [← ha, List.append_assoc]

/-- Claim C1: `is_action_wildcard` returns true iff the effect is `Allow`,
the action field normalized to a sequence contains the literal `"*"`, the
resource field normalized to a sequence contains the literal `"*"` or an
entry containing the substring `":*"`, and the condition field is absent
or empty; moreover replacing the condition of any statement by a
non-empty one makes it return false. -/
theorem spec_C1 (s : Statement) :
    (is_action_wildcard s = true ↔
      (s.effect = some "Allow" ∧ "*" ∈ normActions s ∧
       ("*" ∈ normResources s ∨
         ∃ r ∈ normResources s, strContainsSub r ":*" = true) ∧
       condIsEmpty s = true)) ∧
    (∀ c : List (String × String), c ≠ [] →
      is_action_wildcard { s with condition := some c } = false) := by
  refine ⟨is_action_wildcard_iff s, ?_⟩
  intro c hc
  cases h : is_action_wildcard { s with condition := some c } with
  | false => rfl
  | true =>
    rw [is_action_wildcard_iff] at h
    obtain ⟨-, -, -, hcond⟩ := h
    simp [condIsEmpty] at hcond
    exact absurd hcond hc

/-- Claim C1 witness: a concrete wildcard statement flipped to false by a
concrete non-empty condition. -/
theorem spec_C1_witness :
    ([("StringEquals", "aws:MultiFactorAuthPresent")] :
        List (String × String)) ≠ [] ∧
    is_action_wildcard
      { stmtWild with
        condition := some [("StringEquals", "aws:MultiFactorAuthPresent")] }
      = false :=
  ⟨by decide,
   (spec_C1 stmtWild).2 [("StringEquals", "aws:MultiFactorAuthPresent")]
     (by decide)⟩

/-- Claim C2: `is_many_actions` (whose threshold defaults to 20) returns
true iff the effect is `Allow`, the normalized, deduplicated action list
does not contain `"*"`, and the count of distinct action strings reaches
the threshold; a statement with 20 distinct non-wildcard actions
classifies true, with 19 it classifies false, and 25 entries with 15
distinct values classify false. -/
theorem spec_C2 :
    ACTION_COUNT_THRESHOLD = 20 ∧
    (∀ (threshold : Nat) (s : Statement),
      is_many_actions_t threshold s = true ↔
        (s.effect = some "Allow" ∧ "*" ∉ (normActions s).dedup ∧
         threshold ≤ (normActions s).dedup.length)) ∧
    is_many_actions stmt20 = true ∧
    is_many_actions stmt19 = false ∧
    is_many_actions stmt25dup15 = false := by
  refine ⟨rfl, is_many_actions_t_iff, by decide, by decide, by decide⟩

/-- Claim C3: the classifiers are mutually exclusive — a statement the
wildcard classifier accepts is rejected by the many-actions classifier —
and the driver's `elif` produces a many-actions verdict only when the
wildcard classifier returned false, so no statement appears both in the
wildcard findings and in the many-actions findings of a scan. -/
theorem spec_C3 (s : Statement) :
    (is_action_wildcard s = true → is_many_actions s = false) ∧
    (classifyStmt s = some Verdict.wildcard ↔ is_action_wildcard s = true) ∧
    (∀ n, classifyStmt s = some (Verdict.many n) →
      is_action_wildcard s = false ∧ is_many_actions s = true) ∧
    (∀ policyName policyArn stmts ws ms,
      scanStatements policyName policyArn stmts = some (ws, ms) →
      ∀ f ∈ ws, ∀ g ∈ ms, f.stmt ≠ g.stmt) := by
  refine ⟨?_, classifyStmt_wildcard_iff s, ?_, ?_⟩
  · intro hw
    rw [is_action_wildcard_iff] at hw
    obtain ⟨h1, h2, -, -⟩ := hw
    cases hm : is_many_actions s with
    | false => rfl
    | true =>
      rw [is_many_actions, is_many_actions_t_iff] at hm
      exact absurd (List.mem_dedup.mpr h2) hm.2.1
  · intro n h
    have hc := classifyStmt_many s n h
    exact ⟨hc.1, hc.2.1⟩
  · intro policyName policyArn stmts ws ms h f hf g hg heq
    obtain ⟨hws, hms⟩ := scanStatements_mem policyName policyArn stmts ws ms h
    have h1 := hws f hf
    have h2 := (hms g hg).1
    rw [heq] at h1
    rw [h1] at h2
    simp at h2

/-- Claim C3 witness: the concrete maximal-risk statement is accepted by
the wildcard classifier and rejected by the many-actions classifier. -/
theorem spec_C3_witness :
    is_action_wildcard stmtWild = true ∧ is_many_actions stmtWild = false :=
  ⟨by decide, (spec_C3 stmtWild).1 (by decide)⟩

/-- Claim C7: an absent resource field defaults to `"*"`: a statement with
effect `Allow`, a normalized action list containing `"*"`, no `Resource`
key, and an absent or empty condition is accepted by the wildcard
classifier. -/
theorem spec_C7 (s : Statement) (h1 : s.effect = some "Allow")
    (h2 : "*" ∈ normActions s) (h3 : s.resource = none)
    (h4 : condIsEmpty s = true) : is_action_wildcard s = true := by
  rw [is_action_wildcard_iff]
  refine ⟨h1, h2, Or.inl ?_, h4⟩
  simp [normResources, h3, StrOrList.normalize]

/-- Claim C7 witness: the wildcard statement with its `Resource` key
removed is still accepted. -/
theorem spec_C7_witness :
    stmtWildNoRes.resource = none ∧
    is_action_wildcard stmtWildNoRes = true :=
  ⟨rfl, spec_C7 stmtWildNoRes rfl (by decide) rfl rfl⟩

/-- Claim C9: both classifiers are total on malformed statements: with the
`Effect` key absent, or with the `Action` key absent (normalizing to the
empty action list), both return false instead of failing. -/
theorem spec_C9 (s : Statement) :
    (s.effect = none →
      is_action_wildcard s = false ∧ is_many_actions s = false) ∧
    (s.action = none →
      is_action_wildcard s = false ∧ is_many_actions s = false) := by
  constructor
  · intro he
    constructor
    · simp [is_action_wildcard, he]
    · simp [is_many_actions, is_many_actions_t, he]
  · intro ha
    constructor
    · simp [is_action_wildcard, normActions, ha, StrOrList.normalize]
    · simp [is_many_actions, is_many_actions_t, normActions, ha,
        StrOrList.normalize, ACTION_COUNT_THRESHOLD]

/-- Claim C9 witness: both classifiers return false on a concrete
statement without `Effect` and on one without `Action`. -/
theorem spec_C9_witness :
    is_action_wildcard stmtNoEffect = false ∧
    is_many_actions stmtNoEffect = false ∧
    is_action_wildcard stmtNoAction = false ∧
    is_many_actions stmtNoAction = false :=
  ⟨((spec_C9 stmtNoEffect).1 rfl).1, ((spec_C9 stmtNoEffect).1 rfl).2,
   ((spec_C9 stmtNoAction).2 rfl).1, ((spec_C9 stmtNoAction).2 rfl).2⟩

/-- Claim C10: the driver's unguarded `stmt["Action"]` lookup cannot fail:
whenever the many-actions classifier accepts a statement at any threshold
of at least 1, the statement has an `Action` key, so the per-statement
classification of the driver never raises. -/
theorem spec_C10 :
    (∀ (threshold : Nat) (s : Statement), 1 ≤ threshold →
      is_many_actions_t threshold s = true → s.action.isSome = true) ∧
    (∀ s : Statement, (classifyStmt s).isSome = true) :=
  ⟨action_isSome_of_many, classifyStmt_isSome⟩

/-- Claim C10 witness: at the default threshold 20 the concrete 20-action
statement is accepted and indeed has an `Action` key. -/
theorem spec_C10_witness :
    1 ≤ (20 : Nat) ∧ is_many_actions_t 20 stmt20 = true ∧
    stmt20.action.isSome = true :=
  ⟨by decide, by decide, spec_C10.1 20 stmt20 (by decide) (by decide)⟩

/-- Claim C4: if the list-policies paginator raises a client error — even
after pages whose policies were already scanned — the scan aborts with
only that failure: no findings and no permission-issue lines are
reported. -/
theorem spec_C4 (w : AwsWorld) (e : ClientError)
    (h : w.pageError = some e) : mainScan w = some (ScanResult.fatal e) := by
  have hs := scanPolicies_isSome w w.pages.flatten
  cases hr : scanPolicies w w.pages.flatten with
  | none => rw [hr] at hs; simp at hs
  | some r =>
    obtain ⟨ws, ms, issues⟩ := r
    simp [mainScan, hr, h]

/-- Claim C4 witness: a world whose single page already yielded a wildcard
finding, after which the paginator fails, reports only the failure. -/
theorem spec_C4_witness :
    worldLateFail.pageError = some errDenied ∧
    mainScan worldLateFail = some (ScanResult.fatal errDenied) :=
  ⟨rfl, spec_C4 worldLateFail errDenied rfl⟩

/-- Claim C5: a client error from get-policy or get-policy-version yields
exactly one permission-issue string naming the failing operation and the
policy name, no findings for that policy, and the surrounding scan
composes: the policies before and after the failing one are scanned
unchanged and their findings and issues all appear. -/
theorem spec_C5 (w : AwsWorld) (p : PolicyInfo) :
    (∀ e, w.getPolicy p.policyArn = Except.error e →
      scanPolicy w p = some ([], [], [getPolicyIssue p.policyName e.code])) ∧
    (∀ d e, w.getPolicy p.policyArn = Except.ok d →
      w.getPolicyVersion p.policyArn d.defaultVersionId = Except.error e →
      scanPolicy w p =
        some ([], [], [getPolicyVersionIssue p.policyName e.code])) ∧
    (∀ ps qs a r b, scanPolicies w ps = some a → scanPolicy w p = some r →
      scanPolicies w qs = some b →
      scanPolicies w (ps ++ p :: qs) =
        some (a.1 ++ r.1 ++ b.1, a.2.1 ++ r.2.1 ++ b.2.1,
          a.2.2 ++ r.2.2 ++ b.2.2)) := by
  refine ⟨?_, ?_, ?_⟩
  · intro e he
    simp [scanPolicy, he]
  · intro d e hd he
    simp [scanPolicy, hd, he]
  · intro ps qs a r b ha hr hb
    have hmid : scanPolicies w (p :: qs) =
        some (r.1 ++ b.1, r.2.1 ++ b.2.1, r.2.2 ++ b.2.2) := by
      obtain ⟨r1, r2, r3⟩ := r
      obtain ⟨b1, b2, b3⟩ := b
      simp [scanPolicies, hr, hb]
    have happ := scanPolicies_append w ps (p :: qs) a
      (r.1 ++ b.1, r.2.1 ++ b.2.1, r.2.2 ++ b.2.2) ha hmid
    rw [happ]
    simp [List.append_assoc]

/-- Claim C5 witness: concrete worlds where get-policy, respectively
get-policy-version, deny access to the only policy. -/
theorem spec_C5_witness :
    scanPolicy worldPolicyFail pInfoA =
      some ([], [], [getPolicyIssue "PolicyA" "AccessDenied"]) ∧
    scanPolicy worldVersionFail pInfoA =
      some ([], [], [getPolicyVersionIssue "PolicyA" "AccessDenied"]) ∧
    scanPolicies worldVersionFail ([] ++ pInfoA :: []) =
      some ([] ++ [] ++ [], [] ++ [] ++ [],
        [] ++ [getPolicyVersionIssue "PolicyA" "AccessDenied"] ++ []) :=
  ⟨(spec_C5 worldPolicyFail pInfoA).1 errDenied rfl,
   (spec_C5 worldVersionFail pInfoA).2.1 { defaultVersionId := "v1" }
     errDenied rfl rfl,
   (spec_C5 worldVersionFail pInfoA).2.2 [] [] ([], [], [])
     ([], [], [getPolicyVersionIssue "PolicyA" "AccessDenied"])
     ([], [], []) rfl rfl rfl⟩

/-- Claim C6: the printed permission issues are the recorded ones
deduplicated and sorted: the printed list is sorted, contains exactly the
distinct recorded strings, and prints each recorded string exactly
once. -/
theorem spec_C6 (l : List String) :
    (printedIssues l).Sorted strLeP ∧
    (∀ s, s ∈ printedIssues l ↔ s ∈ l) ∧
    (∀ s, s ∈ l → (printedIssues l).count s = 1) := by
  have hperm : List.Perm (printedIssues l) l.dedup :=
    List.perm_insertionSort strLeP l.dedup
  refine ⟨?_, ?_, ?_⟩
  · haveI : IsTotal String strLeP := ⟨fun a b => charsLe_total a.data b.data⟩
    haveI : IsTrans String strLeP :=
      ⟨fun a b c h₁ h₂ => charsLe_trans a.data b.data c.data h₁ h₂⟩
    exact List.sorted_insertionSort strLeP l.dedup
  · intro s
    rw [hperm.mem_iff, List.mem_dedup]
  · intro s hs
    have hnd : (printedIssues l).Nodup := hperm.nodup_iff.mpr (List.nodup_dedup l)
    have hmem : s ∈ printedIssues l := by
      rw [hperm.mem_iff, List.mem_dedup]
      exact hs
    exact List.count_eq_one_of_mem hnd hmem

/-- Claim C6 witness: a duplicated issue string is printed exactly once. -/
theorem spec_C6_witness :
    "b" ∈ ["b", "a", "b"] ∧ (printedIssues ["b", "a", "b"]).count "b" = 1 :=
  ⟨by decide, (spec_C6 ["b", "a", "b"]).2.2 "b" (by decide)⟩

/-- Claim C8: every many-actions finding the statement loop appends carries
an `actionCount` equal to the number of distinct action strings of the
offending statement's action field. -/
theorem spec_C8 (policyName policyArn : String) (stmts : List Statement)
    (ws : List WildcardFinding) (ms : List ManyFinding)
    (h : scanStatements policyName policyArn stmts = some (ws, ms)) :
    ∀ f ∈ ms, f.actionCount = (normActions f.stmt).dedup.length := by
  intro f hf
  have hm := (scanStatements_mem policyName policyArn stmts ws ms h).2 f hf
  exact stmtActionCount_eq f.stmt f.actionCount hm.2.2

/-- Claim C8 witness: scanning the concrete 20-distinct-action statement
records a many-actions finding whose count, 20, is its distinct-action
count. -/
theorem spec_C8_witness :
    scanStatements "PolicyA" "arn" [stmt20] =
      some ([], [⟨"PolicyA", "arn", stmt20, 20⟩]) ∧
    (⟨"PolicyA", "arn", stmt20, 20⟩ : ManyFinding).actionCount =
      (normActions stmt20).dedup.length :=
  ⟨by decide,
   spec_C8 "PolicyA" "arn" [stmt20] [] [⟨"PolicyA", "arn", stmt20, 20⟩]
     (by decide) ⟨"PolicyA", "arn", stmt20, 20⟩ (by decide)⟩
